import Mathlib

/-!
# inlama: batching scheduler, request builder and transport decode loop

A shallow embedding of `requests.go` and `handler.go`.

* Go slices `[]int` are `Option (List Int)`: `none` is the nil slice, `some []` the
  empty non-nil slice (the two differ under `context == nil`).
* The pointer `*[]int` of `OllamaRequest.Context` is an `Option` of a slice.
* A channel is represented by the sequence of operations performed on its sending
  side (`ChanEvent`); the relay goroutine of `IoHandler` consumes that sequence.
* The standard library (`json.Marshal`, `http.NewRequest`, `client.Do`,
  `decoder.Decode`) is a parameter: the structure `Transport` gives the outcome of
  each call. A response body is the list of outcomes of the successive
  `decoder.Decode` calls that consume it, followed by the error that every call
  after them reports (`EOF` at the end of a body, or an error the decoder keeps).
  Only the text `EOF` ends the decode loop, so with any other kept error the loop of
  `SendRequest` never ends; the model records that instead of a return.
* `StreamHandler` is a step function over the events its `select` can receive
  (time itself is not represented: a `tick` is the firing of `time.After`).
  The fields `relays`, `requests` and `returned` of the state are observation logs:
  the relays started, the requests handed to `SendRequest` and the contexts it
  returned. No step depends on them, except that the number of requests issued so
  far selects the environment of the next exchange.
* Goroutines are run to completion at the point where their effect is determined:
  the relay of an exchange against all the operations `SendRequest` performs on its
  channel. `wg` is the counter of the `sync.WaitGroup`.
-/

namespace Inlama

/-! ## Data model (`cli.go`, `requests.go`) -/

/-- The configuration value `Cli`. -/
structure Cli where
  Stream : Bool
  SystemPrompt : String
  BufferTime : Int
  Url : String
  Model : String
  Presets : List String
  deriving DecidableEq, Repr

/-- The request `OllamaRequest`; `Context` is a pointer to a slice. -/
structure OllamaRequest where
  Model : String
  Prompt : String
  System : String
  Context : Option (Option (List Int))
  Stream : Bool
  deriving DecidableEq, Repr

/-- The response fragment `OllamaResponse`. -/
structure OllamaResponse where
  Done : Bool
  Response : String
  Context : Option (List Int)
  deriving DecidableEq, Repr

/-- The zero value of `OllamaResponse` (`var item OllamaResponse`). -/
def OllamaResponse.zero : OllamaResponse :=
  { Done := false, Response := "", Context := none }

/-- The context array a request carries on the wire: the slice its `Context`
pointer points to, nothing for a nil pointer. -/
def OllamaRequest.carried (r : OllamaRequest) : Option (List Int) :=
  r.Context.join

/-! ## Request builder (`requests.go`) -/

/-- `GenerateFirstRequest(body, config)`. -/
def GenerateFirstRequest (body : String) (config : Cli) : OllamaRequest :=
  { Model := config.Model
    Prompt := body
    System := config.SystemPrompt
    Context := none
    Stream := true }

/-- `GenerateRequest(body, config, context)`: `Context` is `&context`. -/
def GenerateRequest (body : String) (config : Cli) (context : Option (List Int)) :
    OllamaRequest :=
  { Model := config.Model
    Prompt := body
    System := config.SystemPrompt
    Context := some context
    Stream := true }

/-! ## Library behaviour taken as given -/

/-- `strings.Join(elems, sep)`. -/
def Join : List String → String → String
  | [], _ => ""
  | [a], _ => a
  | a :: b :: rest, sep => a ++ sep ++ Join (b :: rest) sep

/-- One operation on the sending side of a `chan string`. -/
inductive ChanEvent where
  | send (s : String)
  | close
  deriving DecidableEq, Repr

/-- The outcome of one `decoder.Decode(&item)`: what `item` holds afterwards and
`err.Error()` when `err` is not nil. -/
structure DecodeStep where
  item : OllamaResponse
  err : Option String
  deriving DecidableEq, Repr

/-- A fragment that decoded without error. -/
def DecodeStep.ok (item : OllamaResponse) : DecodeStep :=
  { item := item, err := none }

/-- The response of `client.Do`. `Body` is the list of outcomes of the successive
`Decode` calls that consume the body; `Rest` is `err.Error()` of every `Decode` call
after them: `EOF` when the body has ended, otherwise the error the decoder keeps
(a syntax error, an unexpected end, a failed read). -/
structure HttpResponse where
  StatusCode : Nat
  Body : List DecodeStep
  Rest : String
  deriving DecidableEq, Repr

/-- The outcomes of the library calls of one `SendRequest`: the error of
`json.Marshal` and of `http.NewRequest` (if any), and the result of `client.Do`
for a URL and a request. -/
structure Transport where
  Marshal : OllamaRequest → Option String
  NewRequest : String → Option String
  Do : String → OllamaRequest → Except String HttpResponse

/-! ## Transport (`requests.go`) -/

/-- The result of `SendRequest`: whether it returns, the operations performed on
`chunks`, and the two return values. When it does not return, `chunks` holds the
operations performed before the loop came to repeat itself; after them the empty
text is sent for ever and the channel is never closed. -/
structure SendResult where
  chunks : List ChanEvent
  context : Option (List Int)
  err : Option String
  returns : Bool
  deriving DecidableEq, Repr

/-- The outcome of the decode loop: the operations on `chunks`, `finalContext`, and
whether the loop was left by a `break`. -/
structure LoopResult where
  chunks : List ChanEvent
  finalContext : OllamaResponse
  ended : Bool
  deriving DecidableEq, Repr

/-- The decode loop of `SendRequest` (`for { ... }`), with the operations on
`chunks` so far. `kept` is the error text of every `Decode` once the outcomes are
exhausted: `EOF` breaks the loop; with any other text each further iteration sends
the empty `item.Response` of a fresh `item` and goes on, so the loop never ends. -/
def decodeLoop (kept : String) : List DecodeStep → List ChanEvent → LoopResult
  | [], chunks =>
    { chunks := chunks, finalContext := OllamaResponse.zero, ended := decide (kept = "EOF") }
  | d :: rest, chunks =>
    if d.err = some "EOF" then
      { chunks := chunks, finalContext := OllamaResponse.zero, ended := true }
    else
      let chunks := chunks ++ [ChanEvent.send d.item.Response]
      if d.item.Done then
        { chunks := chunks, finalContext := d.item, ended := true }
      else decodeLoop kept rest chunks

/-- `SendRequest(request, config, chunks)`. -/
def SendRequest (net : Transport) (request : OllamaRequest) (config : Cli) : SendResult :=
  let requestUrl := config.Url ++ "/api/generate"
  match net.Marshal request with
  | some e => { chunks := [], context := none, err := some e, returns := true }
  | none =>
    match net.NewRequest requestUrl with
    | some e => { chunks := [], context := none, err := some e, returns := true }
    | none =>
      match net.Do requestUrl request with
      | .error e => { chunks := [], context := none, err := some e, returns := true }
      | .ok resp =>
        let r := decodeLoop resp.Rest resp.Body []
        if r.ended then
          { chunks := r.chunks ++ [ChanEvent.close], context := r.finalContext.Context,
            err := none, returns := true }
        else
          { chunks := r.chunks, context := none, err := none, returns := false }

/-! ## Output relay (`handler.go`) -/

/-- The goroutine of `IoHandler`: writes what is received until the channel is
closed. Returns the stream and whether the loop ended (it does not when the
channel is never closed). -/
def relayLoop : List ChanEvent → String → String × Bool
  | [], stream => (stream, false)
  | ChanEvent.close :: _, stream => (stream, true)
  | ChanEvent.send resp :: rest, stream => relayLoop rest (stream ++ resp)

/-- `IoHandler(response, stream, wg)` run against the operations performed on
`response`: `wg.Add(1)`, then `wg.Done()` once the loop has ended. -/
def IoHandler (response : List ChanEvent) (stream : String) (wg : Nat) : String × Nat :=
  let r := relayLoop response stream
  (r.1, if r.2 then wg + 1 - 1 else wg + 1)

/-! ## Single-exchange path (`handler.go`) -/

/-- How a handler ended. `blocked`: it waits for ever in `wg.Wait()`; `looping`: it
never comes back from `SendRequest`. -/
inductive Status where
  | running
  | returned
  | exited
  | blocked
  | looping
  deriving DecidableEq, Repr

/-- What `OneshotHandler` did. -/
structure OneshotResult where
  request : Option OllamaRequest
  stdout : String
  stderr : List String
  status : Status
  deriving DecidableEq, Repr

/-- `OneshotHandler(config)`; `read` is the result of `OneshotReadStdin()`. -/
def OneshotHandler (net : Transport) (read : List String × Option String) (config : Cli) :
    OneshotResult :=
  match read.2 with
  | some e => { request := none, stdout := "", stderr := [e], status := Status.exited }
  | none =>
    let joinedInput := Join read.1 "\n"
    let request := GenerateFirstRequest joinedInput config
    let res := SendRequest net request config
    let relay := IoHandler res.chunks "" 0
    if res.returns then
      match res.err with
      | some e =>
        { request := some request, stdout := relay.1, stderr := [e], status := Status.exited }
      | none =>
        { request := some request, stdout := relay.1, stderr := [],
          status := if relay.2 = 0 then Status.returned else Status.blocked }
    else
      { request := some request, stdout := relay.1, stderr := [], status := Status.looping }

/-! ## Batching scheduler (`handler.go`) -/

/-- What the `select` of `StreamHandler` can receive: a line of `bodyStream`, the
timer, or the close of `bodyStream`. -/
inductive Event where
  | line (body : String)
  | tick
  | closed
  deriving DecidableEq, Repr

/-- The state of `StreamHandler`. -/
structure Session where
  fullBody : List String
  context : Option (List Int)
  wg : Nat
  stdout : String
  stderr : List String
  relays : Nat
  requests : List OllamaRequest
  returned : List (Option (List Int))
  status : Status
  deriving DecidableEq, Repr

/-- The state on entry to the loop. -/
def Session.init : Session :=
  { fullBody := [], context := none, wg := 0, stdout := "", stderr := [],
    relays := 0, requests := [], returned := [], status := Status.running }

/-- The request built in the timer case (`if context == nil { ... } else { ... }`). -/
def nextRequest (config : Cli) (joinedInput : String) (context : Option (List Int)) :
    OllamaRequest :=
  if context = none then GenerateFirstRequest joinedInput config
  else GenerateRequest joinedInput config context

/-- The timer case of the `select`. `net n` is the environment of the exchange
that follows `n` earlier ones. The relay (`go IoHandler(...)`) is started before
the test of `joinedInput` in both branches; what it does depends on the operations
performed on `response` afterwards: none when the iteration ends at `continue`,
those of `SendRequest` otherwise. `wg.Wait()` returns when the counter is zero. -/
def onTick (net : Nat → Transport) (config : Cli) (s : Session) : Session :=
  let joinedInput := Join s.fullBody "\n"
  if joinedInput = "" then
    let relay := IoHandler [] s.stdout s.wg
    { s with fullBody := [], stdout := relay.1, wg := relay.2, relays := s.relays + 1 }
  else
    let request := nextRequest config joinedInput s.context
    let res := SendRequest (net s.requests.length) request config
    let relay := IoHandler res.chunks s.stdout s.wg
    let t : Session :=
      { s with
        fullBody := []
        stdout := relay.1
        wg := relay.2
        relays := s.relays + 1
        requests := s.requests ++ [request] }
    if res.returns then
      let t : Session :=
        { t with returned := s.returned ++ [res.context], context := res.context }
      match res.err with
      | some e => { t with stderr := t.stderr ++ [e], status := Status.exited }
      | none => if t.wg = 0 then t else { t with status := Status.blocked }
    else
      { t with status := Status.looping }

/-- One iteration of the loop of `StreamHandler`. -/
def step (net : Nat → Transport) (config : Cli) (s : Session) (e : Event) : Session :=
  match s.status with
  | Status.running =>
    match e with
    | Event.line body => { s with fullBody := s.fullBody ++ [body] }
    | Event.closed => { s with status := Status.returned }
    | Event.tick => onTick net config s
  | _ => s

/-- The loop of `StreamHandler` from a state, over a sequence of events. -/
def run (net : Nat → Transport) (config : Cli) (s : Session) (events : List Event) : Session :=
  events.foldl (step net config) s

/-- `StreamHandler(config)` over a sequence of events. -/
def StreamHandler (net : Nat → Transport) (config : Cli) (events : List Event) : Session :=
  run net config Session.init events

/-- The relation between the requests issued so far, the contexts `SendRequest`
returned for them and the context held, kept by every iteration of the loop. -/
def Threaded (net : Nat → Transport) (config : Cli) (s : Session) : Prop :=
  (s.status = Status.running → s.returned.length = s.requests.length) ∧
  s.returned.length ≤ s.requests.length ∧
  s.context = s.returned.getLast?.join ∧
  (∀ r, s.requests.head? = some r → r = GenerateFirstRequest r.Prompt config) ∧
  (∀ k r, s.requests[k]? = some r → k < s.returned.length →
    (SendRequest (net k) r config).returns = true ∧
    s.returned[k]? = some (SendRequest (net k) r config).context) ∧
  (∀ k r, s.requests[k + 1]? = some r → s.returned[k]? = some r.carried) ∧
  (∀ r ∈ s.requests, r.Context = r.carried.map some)

/-! ## Concrete inputs -/

/-- A configuration. -/
def sampleConfig : Cli :=
  { Stream := true, SystemPrompt := "sys", BufferTime := 1, Url := "http://h",
    Model := "m", Presets := [] }

/-- A well-formed fragment that is not the last one. -/
def fragment (text : String) : OllamaResponse :=
  { Done := false, Response := text, Context := none }

/-- A well-formed last fragment. -/
def finalFragment (text : String) (context : List Int) : OllamaResponse :=
  { Done := true, Response := text, Context := some context }

/-- An environment in which every call succeeds and the service answers with the
given response. -/
def serving (resp : HttpResponse) : Transport :=
  { Marshal := fun _ => none
    NewRequest := fun _ => none
    Do := fun _ _ => Except.ok resp }

/-- An environment in which every call succeeds and the service answers with the
given status and a body that decodes to the given outcomes and then ends. -/
def answering (status : Nat) (body : List DecodeStep) : Transport :=
  serving { StatusCode := status, Body := body, Rest := "EOF" }

/-- Two fragments and a last one with a context. -/
def sampleResponse : HttpResponse :=
  { StatusCode := 200
    Body := [DecodeStep.ok (fragment "a"), DecodeStep.ok (fragment "b"),
      DecodeStep.ok (finalFragment "c" [1, 2])]
    Rest := "EOF" }

/-- The answer `404 page not found` of a server without the route: the number
decodes but is no fragment (`item` stays at its zero value), then the decoder keeps
the syntax error it meets at `page`. -/
def notFoundResponse : HttpResponse :=
  { StatusCode := 404
    Body := [{ item := OllamaResponse.zero,
               err := some "json: cannot unmarshal number into Go value of type inlama.OllamaResponse" }]
    Rest := "invalid character 'p' looking for beginning of value" }

/-- The service of the round-trip scenario. -/
def sampleNet : Nat → Transport :=
  fun _ => answering sampleResponse.StatusCode sampleResponse.Body

/-- A body with a fragment that fails to decode between two well-formed ones. -/
def malformedBody : List DecodeStep :=
  [DecodeStep.ok (fragment "a"),
   { item := OllamaResponse.zero,
     err := some "json: cannot unmarshal number into Go struct field OllamaResponse.response of type string" },
   DecodeStep.ok (finalFragment "b" [7])]

/-- Two batches, each followed by a timer tick. -/
def sampleEvents : List Event :=
  [Event.line "hello", Event.line "world", Event.tick, Event.line "z", Event.tick]

/-- Fragments of which the second is the first with `done`, followed by one more. -/
def earlyDoneFragments : List OllamaResponse :=
  [fragment "a", finalFragment "b" [1], fragment "late"]

/-- A response with the body `earlyDoneFragments`. -/
def earlyDoneResponse : HttpResponse :=
  { StatusCode := 200, Body := earlyDoneFragments.map DecodeStep.ok, Rest := "EOF" }

/-- The state after the line `x` has arrived. -/
def oneLine : Session :=
  run sampleNet sampleConfig Session.init [Event.line "x"]

/-- The state after the lines `hello` and `world` have arrived. -/
def helloWorld : Session :=
  run sampleNet sampleConfig Session.init [Event.line "hello", Event.line "world"]

/-! ## Lemmas on the library functions -/

theorem Join_cons_cons_ne_empty (a b : String) (rest : List String) :
    Join (a :: b :: rest) "\n" ≠ "" := by
  intro h
  have hl := congrArg String.length h
  have h1 : "\n".length = 1 := by decide
  have h0 : "".length = 0 := by decide
  simp only [Join, String.length_append, h1, h0] at hl
  omega

theorem Join_eq_empty_iff (l : List String) :
    Join l "\n" = "" ↔ l = [] ∨ l = [""] := by
  match l with
  | [] => simp [Join]
  | [a] => simp [Join]
  | a :: b :: rest =>
    constructor
    · intro h
      exact absurd h (Join_cons_cons_ne_empty a b rest)
    · intro h
      simp at h

theorem intercalate_go_eq (acc sep b : String) (rest : List String) :
    String.intercalate.go acc sep (b :: rest) = acc ++ sep ++ Join (b :: rest) sep := by
  induction rest generalizing acc b with
  | nil => simp [String.intercalate.go, Join]
  | cons c rest ih =>
    rw [String.intercalate.go, ih]
    simp [Join, String.append_assoc]

/-- `Join` is the library's `String.intercalate`: the elements in their order, with
the separator between each two of them. -/
theorem Join_eq_intercalate (elems : List String) (sep : String) :
    Join elems sep = String.intercalate sep elems := by
  match elems with
  | [] => rfl
  | [a] => simp [Join, String.intercalate, String.intercalate.go]
  | a :: b :: rest =>
    rw [String.intercalate, intercalate_go_eq]
    rfl

/-- The characters of `Join elems sep`: those of the elements in their order, with
those of the separator between each two of them. -/
theorem Join_data (elems : List String) (sep : String) :
    (Join elems sep).data = List.intercalate sep.data (elems.map String.data) := by
  match elems with
  | [] => simp [Join, List.intercalate]
  | [a] => simp [Join, List.intercalate]
  | a :: b :: rest =>
    have ih := Join_data (b :: rest) sep
    simp only [Join, String.data_append, ih]
    simp [List.intercalate, List.intersperse]

/-! ## Lemmas on the decode loop and the relay -/

theorem decodeLoop_acc (kept : String) (body : List DecodeStep) (acc : List ChanEvent) :
    decodeLoop kept body acc =
      { chunks := acc ++ (decodeLoop kept body []).chunks
        finalContext := (decodeLoop kept body []).finalContext
        ended := (decodeLoop kept body []).ended } := by
  induction body generalizing acc with
  | nil => simp [decodeLoop]
  | cons d rest ih =>
    simp only [decodeLoop]
    by_cases he : d.err = some "EOF"
    · simp [he]
    · by_cases hd : d.item.Done = true
      · simp [he, hd]
      · simp only [he, hd, if_false, List.nil_append, Bool.false_eq_true]
        rw [ih (acc ++ [ChanEvent.send d.item.Response]), ih [ChanEvent.send d.item.Response]]
        simp

theorem decodeLoop_first_done (kept : String) (pre post : List OllamaResponse)
    (d : OllamaResponse) (hpre : ∀ f ∈ pre, f.Done = false) (hd : d.Done = true) :
    decodeLoop kept ((pre ++ d :: post).map DecodeStep.ok) [] =
      { chunks := (pre ++ [d]).map (fun f => ChanEvent.send f.Response)
        finalContext := d
        ended := true } := by
  induction pre with
  | nil => simp [decodeLoop, DecodeStep.ok, hd]
  | cons f pre ih =>
    have hf : f.Done = false := hpre f (List.mem_cons_self _ _)
    have ih2 := ih (fun g hg => hpre g (List.mem_cons_of_mem _ hg))
    simp only [List.cons_append, List.map_cons, decodeLoop, DecodeStep.ok]
    simp only [hf, if_false, List.nil_append, Bool.false_eq_true, List.append_eq]
    rw [decodeLoop_acc]
    rw [ih2]
    simp

theorem exists_first_done (frags : List OllamaResponse)
    (h : ∃ f ∈ frags, f.Done = true) :
    ∃ pre d post, frags = pre ++ d :: post ∧ (∀ f ∈ pre, f.Done = false) ∧ d.Done = true := by
  induction frags with
  | nil =>
    obtain ⟨f, hf, -⟩ := h
    simp at hf
  | cons a rest ih =>
    by_cases ha : a.Done = true
    · exact ⟨[], a, rest, rfl, by simp, ha⟩
    · obtain ⟨f, hf, hfd⟩ := h
      have hrest : ∃ g ∈ rest, g.Done = true := by
        rcases List.mem_cons.mp hf with hfa | hfr
        · rw [hfa] at hfd
          exact absurd hfd ha
        · exact ⟨f, hfr, hfd⟩
      obtain ⟨pre, d, post, hsplit, hpre, hd⟩ := ih hrest
      refine ⟨a :: pre, d, post, by rw [hsplit]; rfl, ?_, hd⟩
      intro g hg
      rcases List.mem_cons.mp hg with hga | hgp
      · rw [hga]
        simpa using ha
      · exact hpre g hgp

theorem relayLoop_sends (msgs : List String) (rest : List ChanEvent) (stream : String) :
    relayLoop (msgs.map ChanEvent.send ++ ChanEvent.close :: rest) stream =
      (msgs.foldl (fun out m => out ++ m) stream, true) := by
  induction msgs generalizing stream with
  | nil => simp [relayLoop]
  | cons m msgs ih =>
    simp only [List.map_cons, List.cons_append, relayLoop, List.append_eq]
    rw [ih]
    simp

theorem SendRequest_ended (net : Transport) (request : OllamaRequest) (config : Cli)
    (resp : HttpResponse)
    (hm : net.Marshal request = none)
    (hn : net.NewRequest (config.Url ++ "/api/generate") = none)
    (hdo : net.Do (config.Url ++ "/api/generate") request = Except.ok resp)
    (hended : (decodeLoop resp.Rest resp.Body []).ended = true) :
    SendRequest net request config =
      { chunks := (decodeLoop resp.Rest resp.Body []).chunks ++ [ChanEvent.close]
        context := (decodeLoop resp.Rest resp.Body []).finalContext.Context
        err := none
        returns := true } := by
  simp [SendRequest, hm, hn, hdo, hended]

theorem SendRequest_err_returns (net : Transport) (request : OllamaRequest) (config : Cli)
    (h : (SendRequest net request config).err ≠ none) :
    (SendRequest net request config).returns = true := by
  revert h
  unfold SendRequest
  simp only
  split
  · simp
  · split
    · simp
    · split
      · simp
      · split <;> simp

/-! ## Lemmas on the scheduler -/

theorem nextRequest_carried (config : Cli) (joinedInput : String) (context : Option (List Int)) :
    (nextRequest config joinedInput context).carried = context := by
  cases context <;> simp [nextRequest, OllamaRequest.carried, GenerateFirstRequest, GenerateRequest]

theorem nextRequest_context (config : Cli) (joinedInput : String) (context : Option (List Int)) :
    (nextRequest config joinedInput context).Context = context.map some := by
  cases context <;> simp [nextRequest, GenerateFirstRequest, GenerateRequest]

theorem nextRequest_prompt (config : Cli) (joinedInput : String) (context : Option (List Int)) :
    (nextRequest config joinedInput context).Prompt = joinedInput := by
  cases context <;> simp [nextRequest, GenerateFirstRequest, GenerateRequest]

theorem step_stopped (net : Nat → Transport) (config : Cli) (s : Session) (e : Event)
    (h : s.status ≠ Status.running) : step net config s e = s := by
  unfold step
  split
  · rename_i hs
    exact absurd hs h
  · rfl

theorem run_stopped (net : Nat → Transport) (config : Cli) (s : Session) (events : List Event)
    (h : s.status ≠ Status.running) : run net config s events = s := by
  induction events with
  | nil => rfl
  | cons e rest ih =>
    have hs : step net config s e = s := step_stopped net config s e h
    simp only [run, List.foldl_cons, hs]
    exact ih

theorem run_cons (net : Nat → Transport) (config : Cli) (s : Session) (e : Event)
    (events : List Event) :
    run net config s (e :: events) = run net config (step net config s e) events := rfl

theorem run_append (net : Nat → Transport) (config : Cli) (s : Session)
    (ev1 ev2 : List Event) :
    run net config s (ev1 ++ ev2) = run net config (run net config s ev1) ev2 := by
  simp [run, List.foldl_append]

theorem onTick_empty (net : Nat → Transport) (config : Cli) (s : Session)
    (h : Join s.fullBody "\n" = "") :
    onTick net config s =
      { s with fullBody := [], wg := s.wg + 1, relays := s.relays + 1 } := by
  simp [onTick, h, IoHandler, relayLoop]

theorem onTick_send (net : Nat → Transport) (config : Cli) (s : Session)
    (h : Join s.fullBody "\n" ≠ "") :
    (onTick net config s).requests =
        s.requests ++ [nextRequest config (Join s.fullBody "\n") s.context] ∧
    (onTick net config s).fullBody = [] ∧
    (onTick net config s).relays = s.relays + 1 ∧
    (onTick net config s).stdout =
        (IoHandler (SendRequest (net s.requests.length)
          (nextRequest config (Join s.fullBody "\n") s.context) config).chunks s.stdout s.wg).1 ∧
    (onTick net config s).wg =
        (IoHandler (SendRequest (net s.requests.length)
          (nextRequest config (Join s.fullBody "\n") s.context) config).chunks s.stdout s.wg).2 := by
  simp only [onTick, h, if_false]
  split
  · split
    · simp
    · split <;> simp
  · simp

theorem onTick_returns (net : Nat → Transport) (config : Cli) (s : Session)
    (h : Join s.fullBody "\n" ≠ "")
    (hret : (SendRequest (net s.requests.length)
      (nextRequest config (Join s.fullBody "\n") s.context) config).returns = true) :
    (onTick net config s).returned =
        s.returned ++ [(SendRequest (net s.requests.length)
          (nextRequest config (Join s.fullBody "\n") s.context) config).context] ∧
    (onTick net config s).context =
        (SendRequest (net s.requests.length)
          (nextRequest config (Join s.fullBody "\n") s.context) config).context := by
  simp only [onTick, h, if_false, hret, if_true]
  split
  · simp
  · split <;> simp

theorem onTick_loops (net : Nat → Transport) (config : Cli) (s : Session)
    (h : Join s.fullBody "\n" ≠ "")
    (hret : (SendRequest (net s.requests.length)
      (nextRequest config (Join s.fullBody "\n") s.context) config).returns = false) :
    (onTick net config s).returned = s.returned ∧
    (onTick net config s).context = s.context ∧
    (onTick net config s).status = Status.looping := by
  simp [onTick, h, hret]

theorem Threaded_init (net : Nat → Transport) (config : Cli) :
    Threaded net config Session.init := by
  simp [Threaded, Session.init]

theorem Threaded_onTick (net : Nat → Transport) (config : Cli) (s : Session)
    (hrun : s.status = Status.running)
    (h : Threaded net config s) : Threaded net config (onTick net config s) := by
  by_cases hj : Join s.fullBody "\n" = ""
  · rw [onTick_empty net config s hj]
    exact h
  · obtain ⟨hlenrun, -, hctx, hhead, hret, hnext, hptr⟩ := h
    have hlen : s.returned.length = s.requests.length := hlenrun hrun
    obtain ⟨hreq, -, -, -, -⟩ := onTick_send net config s hj
    -- the parts that do not depend on whether `SendRequest` returns
    have hhead2 : ∀ r, (onTick net config s).requests.head? = some r →
        r = GenerateFirstRequest r.Prompt config := by
      intro r hr
      rw [hreq] at hr
      cases hrs : s.requests with
      | nil =>
        rw [hrs] at hr
        simp only [List.nil_append, List.head?_cons, Option.some.injEq] at hr
        have hnil : s.returned = [] := by
          apply List.eq_nil_of_length_eq_zero
          rw [hlen, hrs]
          rfl
        have hnone : s.context = none := by
          rw [hctx, hnil]
          rfl
        rw [← hr, hnone]
        simp [nextRequest, GenerateFirstRequest]
      | cons a rest =>
        rw [hrs] at hr hhead
        apply hhead
        simpa using hr
    have hnext2 : ∀ k r, (onTick net config s).requests[k + 1]? = some r →
        s.returned[k]? = some r.carried := by
      intro k r hr
      rw [hreq] at hr
      rw [List.getElem?_append] at hr
      by_cases hk : k + 1 < s.requests.length
      · simp only [hk, if_true] at hr
        exact hnext k r hr
      · simp only [hk, if_false] at hr
        cases hkk : k + 1 - s.requests.length with
        | zero =>
          rw [hkk] at hr
          have hkeq : k + 1 = s.requests.length := by omega
          have hk2 : k < s.returned.length := by omega
          simp only [List.getElem?_cons_zero, Option.some.injEq] at hr
          rw [← hr, nextRequest_carried, hctx, List.getLast?_eq_getElem?]
          have hidx : s.returned.length - 1 = k := by omega
          rw [hidx]
          rw [List.getElem?_eq_getElem hk2]
          rfl
        | succ n =>
          rw [hkk] at hr
          simp at hr
    have hptr2 : ∀ r ∈ (onTick net config s).requests, r.Context = r.carried.map some := by
      intro r hr
      rw [hreq] at hr
      rcases List.mem_append.mp hr with hold | hnew
      · exact hptr r hold
      · rw [List.mem_singleton.mp hnew, nextRequest_carried]
        exact nextRequest_context config _ s.context
    cases hreturns : (SendRequest (net s.requests.length)
        (nextRequest config (Join s.fullBody "\n") s.context) config).returns with
    | true =>
      obtain ⟨hretd, hc⟩ := onTick_returns net config s hj hreturns
      refine ⟨?_, ?_, ?_, hhead2, ?_, ?_, hptr2⟩
      · intro _
        rw [hreq, hretd]
        simp [hlen]
      · rw [hreq, hretd]
        simp [hlen]
      · rw [hretd, hc]
        simp
      · intro k r hr hk
        rw [hreq] at hr
        rw [hretd] at hk ⊢
        rw [List.getElem?_append] at hr
        rw [List.getElem?_append]
        by_cases hkl : k < s.requests.length
        · have hk2 : k < s.returned.length := by omega
          simp only [hkl, hk2, if_true] at hr ⊢
          exact hret k r hr hk2
        · have hk2 : ¬ k < s.returned.length := by omega
          simp only [hkl, hk2, if_false] at hr ⊢
          rw [hlen]
          cases hkk : k - s.requests.length with
          | zero =>
            rw [hkk] at hr
            have hkeq : k = s.requests.length := by omega
            simp only [List.getElem?_cons_zero, Option.some.injEq] at hr
            rw [← hr, hkeq]
            exact ⟨hreturns, by simp⟩
          | succ n =>
            rw [hkk] at hr
            simp at hr
      · intro k r hr
        rw [hretd]
        have hold := hnext2 k r hr
        have hk2 : k < s.returned.length := (List.getElem?_eq_some_iff.mp hold).1
        rw [List.getElem?_append_left hk2]
        exact hold
    | false =>
      obtain ⟨hretd, hc, hst⟩ := onTick_loops net config s hj hreturns
      refine ⟨?_, ?_, ?_, hhead2, ?_, ?_, hptr2⟩
      · intro hr
        rw [hst] at hr
        exact absurd hr (by decide)
      · rw [hreq, hretd]
        simp [hlen]
      · rw [hretd, hc]
        exact hctx
      · intro k r hr hk
        rw [hretd] at hk ⊢
        rw [hreq] at hr
        have hkl : k < s.requests.length := by omega
        rw [List.getElem?_append_left hkl] at hr
        exact hret k r hr hk
      · intro k r hr
        rw [hretd]
        exact hnext2 k r hr

theorem Threaded_step (net : Nat → Transport) (config : Cli) (s : Session) (e : Event)
    (h : Threaded net config s) : Threaded net config (step net config s e) := by
  unfold step
  split
  · rename_i hrun
    cases e with
    | line body => exact h
    | tick => exact Threaded_onTick net config s hrun h
    | closed =>
      obtain ⟨-, h2⟩ := h
      refine ⟨fun hr => ?_, h2⟩
      have hne : Status.returned ≠ Status.running := by decide
      exact absurd hr hne
  · exact h

theorem Threaded_run (net : Nat → Transport) (config : Cli) (s : Session)
    (events : List Event) (h : Threaded net config s) :
    Threaded net config (run net config s events) := by
  induction events generalizing s with
  | nil => exact h
  | cons e rest ih =>
    rw [run_cons]
    exact ih (step net config s e) (Threaded_step net config s e h)

theorem run_lines (net : Nat → Transport) (config : Cli) (s : Session) (batch : List String)
    (h : s.status = Status.running) :
    run net config s (batch.map Event.line) = { s with fullBody := s.fullBody ++ batch } := by
  induction batch generalizing s with
  | nil => simp [run]
  | cons b rest ih =>
    simp only [List.map_cons, run_cons]
    have hs : step net config s (Event.line b) = { s with fullBody := s.fullBody ++ [b] } := by
      simp [step, h]
    rw [hs]
    rw [ih _ (show ({ s with fullBody := s.fullBody ++ [b] } : Session).status =
      Status.running from h)]
    simp

theorem step_tick (net : Nat → Transport) (config : Cli) (s : Session)
    (h : s.status = Status.running) : step net config s Event.tick = onTick net config s := by
  simp [step, h]

theorem onTick_status (net : Nat → Transport) (config : Cli) (s : Session)
    (h : Join s.fullBody "\n" ≠ "")
    (he : (SendRequest (net s.requests.length)
      (nextRequest config (Join s.fullBody "\n") s.context) config).err ≠ none) :
    (onTick net config s).status = Status.exited := by
  have hret := SendRequest_err_returns _ _ _ he
  simp only [onTick, h, if_false, hret, if_true]
  split
  · rfl
  · rename_i hnone
    exact absurd hnone he

theorem OneshotHandler_fatal (net : Transport) (config : Cli) (lines : List String)
    (he : (SendRequest net (GenerateFirstRequest (Join lines "\n") config) config).err ≠ none) :
    (OneshotHandler net (lines, none) config).status = Status.exited := by
  have hret := SendRequest_err_returns _ _ _ he
  simp only [OneshotHandler, hret, if_true]
  split
  · rfl
  · rename_i hnone
    exact absurd hnone he

/-- The answer `404 page not found` keeps `SendRequest` in its decode loop: it
sends an empty text, never closes the sink and never returns. -/
theorem SendRequest_not_found_loops :
    SendRequest (serving notFoundResponse) (GenerateFirstRequest "x" sampleConfig)
        sampleConfig =
      { chunks := [ChanEvent.send ""], context := none, err := none, returns := false } := by
  decide

/-! ## The claims -/

/-- C1: in every streaming session (any finite sequence of line, timer and close
events, whatever the exchanges return) the first request issued is built by
`GenerateFirstRequest` and has no context, and every later request carries
exactly the context that `SendRequest` returned for the request issued before it
(that call did return): its `Context` points to that array, and is nil when nil was
returned. -/
theorem C1_context_threading (net : Nat → Transport) (config : Cli) (events : List Event)
    (k : Nat) (r : OllamaRequest)
    (h : (StreamHandler net config events).requests[k]? = some r) :
    (k = 0 → r = GenerateFirstRequest r.Prompt config ∧ r.Context = none) ∧
    (∀ j, k = j + 1 → ∃ p, (StreamHandler net config events).requests[j]? = some p ∧
      (SendRequest (net j) p config).returns = true ∧
      r.carried = (SendRequest (net j) p config).context ∧
      r.Context = (SendRequest (net j) p config).context.map some) := by
  have hinv := Threaded_run net config Session.init events (Threaded_init net config)
  obtain ⟨-, -, -, hhead, hret, hnext, hptr⟩ := hinv
  constructor
  · intro hk
    subst hk
    have hr : (StreamHandler net config events).requests.head? = some r := by
      rw [← h]
      cases (StreamHandler net config events).requests <;> simp
    have hg := hhead r hr
    refine ⟨hg, ?_⟩
    rw [hg]
    rfl
  · intro j hj
    subst hj
    have hjlt : j < (StreamHandler net config events).requests.length := by
      have := (List.getElem?_eq_some_iff.mp h).1
      omega
    have h1 := hnext j r h
    have hjret : j < (StreamHandler net config events).returned.length :=
      (List.getElem?_eq_some_iff.mp h1).1
    obtain ⟨hreturns, h2⟩ := hret j _ (List.getElem?_eq_getElem hjlt) hjret
    rw [h1] at h2
    have hcar := Option.some.inj h2
    have hmem : r ∈ (StreamHandler net config events).requests :=
      List.getElem?_mem h
    refine ⟨(StreamHandler net config events).requests[j],
      List.getElem?_eq_getElem hjlt, hreturns, hcar, ?_⟩
    rw [← hcar]
    exact hptr r hmem

/-- Witness of C1 on a session of two batches: the second request carries the
context `[1, 2]` returned for the first. -/
theorem C1_context_threading_witness :
    (StreamHandler sampleNet sampleConfig sampleEvents).requests[1]? =
        some (GenerateRequest "z" sampleConfig (some [1, 2])) ∧
    ∃ p, (StreamHandler sampleNet sampleConfig sampleEvents).requests[0]? = some p ∧
      (SendRequest (sampleNet 0) p sampleConfig).returns = true ∧
      (GenerateRequest "z" sampleConfig (some [1, 2])).carried =
        (SendRequest (sampleNet 0) p sampleConfig).context ∧
      (GenerateRequest "z" sampleConfig (some [1, 2])).Context =
        (SendRequest (sampleNet 0) p sampleConfig).context.map some :=
  ⟨by decide,
   (C1_context_threading sampleNet sampleConfig sampleEvents 1
      (GenerateRequest "z" sampleConfig (some [1, 2])) (by decide)).2 0 rfl⟩

/-- C2 as stated fails: a buffer holding one empty line is not empty, yet the timer
tick issues no request for it. -/
theorem C2_single_empty_line_counterexample :
    (run sampleNet sampleConfig Session.init [Event.line ""]).fullBody = [""] ∧
    (run sampleNet sampleConfig Session.init [Event.line ""]).fullBody ≠ [] ∧
    (run sampleNet sampleConfig Session.init [Event.line ""]).status = Status.running ∧
    (step sampleNet sampleConfig (run sampleNet sampleConfig Session.init [Event.line ""])
      Event.tick).requests = [] := by
  decide

/-- C2 (amended): for every buffer that is neither empty nor a single empty line, a
timer tick issues exactly one request, its prompt is the buffered lines joined by
a newline in arrival order, and the buffer is empty afterwards. -/
theorem C2_flush_issues_one_request (net : Nat → Transport) (config : Cli) (s : Session)
    (hrun : s.status = Status.running) (hne : s.fullBody ≠ []) (hline : s.fullBody ≠ [""]) :
    (step net config s Event.tick).requests =
        s.requests ++ [nextRequest config (Join s.fullBody "\n") s.context] ∧
    (nextRequest config (Join s.fullBody "\n") s.context).Prompt = Join s.fullBody "\n" ∧
    (nextRequest config (Join s.fullBody "\n") s.context).Prompt =
        String.intercalate "\n" s.fullBody ∧
    (step net config s Event.tick).fullBody = [] := by
  have hj : Join s.fullBody "\n" ≠ "" := by
    intro h
    rcases (Join_eq_empty_iff s.fullBody).mp h with h1 | h1
    · exact hne h1
    · exact hline h1
  rw [step_tick net config s hrun]
  obtain ⟨hreq, hbody, -, -, -⟩ := onTick_send net config s hj
  refine ⟨hreq, nextRequest_prompt _ _ _, ?_, hbody⟩
  rw [nextRequest_prompt, Join_eq_intercalate]

/-- Witness of C2: the lines `hello`, `world` give exactly one request, with body
`hello\nworld`. -/
theorem C2_flush_issues_one_request_witness :
    helloWorld.fullBody = ["hello", "world"] ∧
    (step sampleNet sampleConfig helloWorld Event.tick).requests =
        helloWorld.requests ++ [nextRequest sampleConfig "hello\nworld" none] ∧
    (nextRequest sampleConfig "hello\nworld" none).Prompt = "hello\nworld" ∧
    (nextRequest sampleConfig "hello\nworld" none).Prompt =
        String.intercalate "\n" ["hello", "world"] ∧
    (step sampleNet sampleConfig helloWorld Event.tick).fullBody = [] :=
  ⟨by decide,
   C2_flush_issues_one_request sampleNet sampleConfig helloWorld
     (by decide) (by decide) (by decide)⟩

/-- C3: with an empty buffer a timer tick calls `SendRequest` zero times, keeps the
held context, leaves the buffer empty and the loop goes on waiting. -/
theorem C3_empty_tick_no_exchange (net : Nat → Transport) (config : Cli) (s : Session)
    (hrun : s.status = Status.running) (hbuf : s.fullBody = []) :
    (step net config s Event.tick).requests = s.requests ∧
    (step net config s Event.tick).returned = s.returned ∧
    (step net config s Event.tick).context = s.context ∧
    (step net config s Event.tick).fullBody = [] ∧
    (step net config s Event.tick).status = Status.running := by
  have hj : Join s.fullBody "\n" = "" := by
    rw [hbuf]
    rfl
  rw [step_tick net config s hrun, onTick_empty net config s hj]
  exact ⟨rfl, rfl, rfl, rfl, hrun⟩

/-- Witness of C3 at the initial state. -/
theorem C3_empty_tick_no_exchange_witness :
    (step sampleNet sampleConfig Session.init Event.tick).requests = [] ∧
    (step sampleNet sampleConfig Session.init Event.tick).returned = [] ∧
    (step sampleNet sampleConfig Session.init Event.tick).context = none ∧
    (step sampleNet sampleConfig Session.init Event.tick).fullBody = [] ∧
    (step sampleNet sampleConfig Session.init Event.tick).status = Status.running :=
  C3_empty_tick_no_exchange sampleNet sampleConfig Session.init rfl rfl

/-- C4: when the body decodes as well-formed fragments of which at least one has
`done`, `SendRequest` stops at the first such fragment `d`: it returns the context
of `d` and a nil error, the sink receives the texts of the fragments up to and
including `d` in arrival order, nothing of a later fragment, and the close of the
sink is the last operation. -/
theorem C4_stops_at_first_done (net : Transport) (request : OllamaRequest) (config : Cli)
    (resp : HttpResponse) (frags : List OllamaResponse)
    (hm : net.Marshal request = none)
    (hn : net.NewRequest (config.Url ++ "/api/generate") = none)
    (hdo : net.Do (config.Url ++ "/api/generate") request = Except.ok resp)
    (hbody : resp.Body = frags.map DecodeStep.ok)
    (hdone : ∃ f ∈ frags, f.Done = true) :
    ∃ pre d post, frags = pre ++ d :: post ∧ (∀ f ∈ pre, f.Done = false) ∧ d.Done = true ∧
      SendRequest net request config =
        { chunks := (pre ++ [d]).map (fun f => ChanEvent.send f.Response) ++ [ChanEvent.close]
          context := d.Context
          err := none
          returns := true } := by
  obtain ⟨pre, d, post, hsplit, hpre, hd⟩ := exists_first_done frags hdone
  refine ⟨pre, d, post, hsplit, hpre, hd, ?_⟩
  have hloop := decodeLoop_first_done resp.Rest pre post d hpre hd
  rw [← hsplit, ← hbody] at hloop
  rw [SendRequest_ended net request config resp hm hn hdo (by rw [hloop]), hloop]

/-- Witness of C4: the fragment after the first `done` fragment is not relayed. -/
theorem C4_stops_at_first_done_witness :
    SendRequest (answering 200 earlyDoneResponse.Body)
        (GenerateFirstRequest "x" sampleConfig) sampleConfig =
      { chunks := [ChanEvent.send "a", ChanEvent.send "b", ChanEvent.close]
        context := some [1]
        err := none
        returns := true } ∧
    ∃ pre d post, earlyDoneFragments = pre ++ d :: post ∧ (∀ f ∈ pre, f.Done = false) ∧
      d.Done = true ∧
      SendRequest (answering 200 earlyDoneResponse.Body)
          (GenerateFirstRequest "x" sampleConfig) sampleConfig =
        { chunks := (pre ++ [d]).map (fun f => ChanEvent.send f.Response) ++ [ChanEvent.close]
          context := d.Context
          err := none
          returns := true } :=
  ⟨by decide,
   C4_stops_at_first_done (answering 200 earlyDoneResponse.Body)
     (GenerateFirstRequest "x" sampleConfig) sampleConfig earlyDoneResponse
     earlyDoneFragments rfl rfl rfl rfl ⟨finalFragment "b" [1], by decide, rfl⟩⟩

/-- C5 as stated fails: the text of the last fragment is relayed too, so with the
fragments `a`, `b` and a last fragment `c` the output is `abc`, not `ab`. -/
theorem C5_final_text_relayed_counterexample :
    (StreamHandler sampleNet sampleConfig [Event.line "x", Event.tick]).stdout = "abc" ∧
    (StreamHandler sampleNet sampleConfig [Event.line "x", Event.tick]).stdout ≠ "a" ++ "b" := by
  decide

/-- C5 (amended): for a response of two fragments that are not the last and a last
`done` fragment with context `C`, the text relayed to the output is the text of
all three fragments in order (that of the two first ones when the last has no
text), the context held afterwards is `C`, and if the loop goes on, the request
built for the next batch with a non-empty body carries exactly `C`. -/
theorem C5_round_trip (net : Nat → Transport) (config : Cli) (s : Session)
    (resp : HttpResponse) (f1 f2 d : OllamaResponse) (C : List Int) (batch : List String)
    (hrun : s.status = Status.running)
    (hbuf : Join s.fullBody "\n" ≠ "")
    (hm : (net s.requests.length).Marshal
      (nextRequest config (Join s.fullBody "\n") s.context) = none)
    (hn : (net s.requests.length).NewRequest (config.Url ++ "/api/generate") = none)
    (hdo : (net s.requests.length).Do (config.Url ++ "/api/generate")
      (nextRequest config (Join s.fullBody "\n") s.context) = Except.ok resp)
    (hbody : resp.Body = [DecodeStep.ok f1, DecodeStep.ok f2, DecodeStep.ok d])
    (h1 : f1.Done = false) (h2 : f2.Done = false) (hd : d.Done = true)
    (hC : d.Context = some C)
    (hnext : Join batch "\n" ≠ "") :
    (step net config s Event.tick).stdout =
        s.stdout ++ f1.Response ++ f2.Response ++ d.Response ∧
    (d.Response = "" →
      (step net config s Event.tick).stdout = s.stdout ++ f1.Response ++ f2.Response) ∧
    (step net config s Event.tick).context = some C ∧
    ((step net config s Event.tick).status = Status.running →
      (run net config (step net config s Event.tick)
          (batch.map Event.line ++ [Event.tick])).requests =
        (step net config s Event.tick).requests ++
          [GenerateRequest (Join batch "\n") config (some C)] ∧
      (GenerateRequest (Join batch "\n") config (some C)).Context = some (some C)) := by
  have hloop : decodeLoop resp.Rest resp.Body [] =
      { chunks := [ChanEvent.send f1.Response, ChanEvent.send f2.Response,
          ChanEvent.send d.Response]
        finalContext := d
        ended := true } := by
    rw [hbody]
    simp [decodeLoop, DecodeStep.ok, h1, h2, hd]
  have hsend := SendRequest_ended (net s.requests.length)
    (nextRequest config (Join s.fullBody "\n") s.context) config resp hm hn hdo
    (by rw [hloop])
  rw [hloop] at hsend
  obtain ⟨-, hfull, -, hout, -⟩ := onTick_send net config s hbuf
  obtain ⟨-, hctx⟩ := onTick_returns net config s hbuf (by rw [hsend])
  rw [step_tick net config s hrun]
  have hstdout : (onTick net config s).stdout =
      s.stdout ++ f1.Response ++ f2.Response ++ d.Response := by
    rw [hout, hsend]
    simp [IoHandler, relayLoop]
  refine ⟨hstdout, ?_, ?_, ?_⟩
  · intro he
    rw [hstdout, he]
    simp
  · rw [hctx, hsend]
    exact hC
  · intro hstat
    refine ⟨?_, rfl⟩
    rw [run_append, run_lines net config _ batch hstat]
    have hctx2 : (onTick net config s).context = some C := by
      rw [hctx, hsend]
      exact hC
    have hjoin : Join ((onTick net config s).fullBody ++ batch) "\n" = Join batch "\n" := by
      rw [hfull]
      rfl
    have hstep : run net config
        { onTick net config s with fullBody := (onTick net config s).fullBody ++ batch }
        [Event.tick] =
        onTick net config
          { onTick net config s with fullBody := (onTick net config s).fullBody ++ batch } := by
      simp [run, step, hstat]
    rw [hstep]
    have hne : Join ({ onTick net config s with
        fullBody := (onTick net config s).fullBody ++ batch } : Session).fullBody "\n" ≠ "" := by
      show Join ((onTick net config s).fullBody ++ batch) "\n" ≠ ""
      rw [hjoin]
      exact hnext
    obtain ⟨hreq2, -⟩ := onTick_send net config _ hne
    rw [hreq2]
    show (onTick net config s).requests ++
        [nextRequest config (Join ((onTick net config s).fullBody ++ batch) "\n")
          (onTick net config s).context] = _
    rw [hjoin, hctx2]
    simp [nextRequest]

/-- Witness of C5 on the session that starts with the line `x`. -/
theorem C5_round_trip_witness :
    (step sampleNet sampleConfig oneLine Event.tick).stdout = "" ++ "a" ++ "b" ++ "c" ∧
    (step sampleNet sampleConfig oneLine Event.tick).context = some [1, 2] ∧
    (step sampleNet sampleConfig oneLine Event.tick).status = Status.running ∧
    (run sampleNet sampleConfig (step sampleNet sampleConfig oneLine Event.tick)
        ([Event.line "z"] ++ [Event.tick])).requests =
      (step sampleNet sampleConfig oneLine Event.tick).requests ++
        [GenerateRequest "z" sampleConfig (some [1, 2])] :=
  have h := C5_round_trip sampleNet sampleConfig oneLine sampleResponse
    (fragment "a") (fragment "b") (finalFragment "c" [1, 2]) [1, 2] ["z"]
    (by decide) (by decide) rfl rfl rfl rfl rfl rfl rfl rfl (by decide)
  ⟨h.1, h.2.2.1, by decide, (h.2.2.2 (by decide)).1⟩

/-- C6 fails on the code: for the fragment that does not decode the loop still
sends `item.Response` (here the empty string of the zero value) to the sink, so
the sink receives three texts, not the two of the well-formed fragments. -/
theorem C6_malformed_fragment_is_sent :
    SendRequest (answering 200 malformedBody) (GenerateFirstRequest "x" sampleConfig)
        sampleConfig =
      { chunks := [ChanEvent.send "a", ChanEvent.send "", ChanEvent.send "b", ChanEvent.close]
        context := some [7]
        err := none
        returns := true } ∧
    (SendRequest (answering 200 malformedBody) (GenerateFirstRequest "x" sampleConfig)
        sampleConfig).chunks ≠ [ChanEvent.send "a", ChanEvent.send "b", ChanEvent.close] := by
  decide

/-- C7: on the single-exchange path, for every sequence of lines read without
error (every non-empty one in particular), the request has as prompt the lines
joined by a newline in their original order (the library's `String.intercalate`;
character by character, the lines in order with one newline between each two),
model and system prompt of the configuration, `stream = true` and no context. -/
theorem C7_oneshot_request (net : Transport) (config : Cli) (lines : List String) :
    (OneshotHandler net (lines, none) config).request =
      some { Model := config.Model
             Prompt := String.intercalate "\n" lines
             System := config.SystemPrompt
             Context := none
             Stream := true } ∧
    (String.intercalate "\n" lines).data =
      List.intercalate "\n".data (lines.map String.data) := by
  constructor
  · rw [← Join_eq_intercalate]
    simp only [OneshotHandler, GenerateFirstRequest]
    split
    · split <;> rfl
    · rfl
  · rw [← Join_eq_intercalate]
    exact Join_data lines "\n"

/-- Witness of C7 on three lines: the prompt is `one\ntwo\nthree`. -/
theorem C7_oneshot_request_witness :
    (OneshotHandler (serving sampleResponse) (["one", "two", "three"], none)
        sampleConfig).request =
      some { Model := "m"
             Prompt := "one\ntwo\nthree"
             System := "sys"
             Context := none
             Stream := true } :=
  (C7_oneshot_request (serving sampleResponse) sampleConfig ["one", "two", "three"]).1

/-- C8: handling the close of the line source issues no request, leaves buffer and
context as they are (a pending buffer is not flushed) and ends the loop: no later
event changes the state. -/
theorem C8_close_ends_session (net : Nat → Transport) (config : Cli) (s : Session)
    (hrun : s.status = Status.running) :
    step net config s Event.closed = { s with status := Status.returned } ∧
    (step net config s Event.closed).requests = s.requests ∧
    (step net config s Event.closed).returned = s.returned ∧
    (step net config s Event.closed).fullBody = s.fullBody ∧
    (∀ events, run net config (step net config s Event.closed) events =
      step net config s Event.closed) := by
  have hs : step net config s Event.closed = { s with status := Status.returned } := by
    simp [step, hrun]
  refine ⟨hs, ?_, ?_, ?_, ?_⟩
  · rw [hs]
  · rw [hs]
  · rw [hs]
  · intro events
    apply run_stopped
    rw [hs]
    simp

/-- Witness of C8 with the pending buffer `hello`, `world`. -/
theorem C8_close_ends_session_witness :
    helloWorld.fullBody = ["hello", "world"] ∧
    (step sampleNet sampleConfig helloWorld Event.closed).requests = [] ∧
    (run sampleNet sampleConfig (step sampleNet sampleConfig helloWorld Event.closed)
      [Event.tick]).requests = [] :=
  have h := C8_close_ends_session sampleNet sampleConfig helloWorld (by decide)
  ⟨by decide, h.2.1, by rw [h.2.2.2.2 [Event.tick]]; exact h.2.1⟩

/-- C9 as stated fails: for a response with status 404 whose body decodes,
`SendRequest` returns the context with a nil error. -/
theorem C9_status_404_counterexample :
    ¬ (200 ≤ 404 ∧ 404 ≤ 299) ∧
    (answering 404 sampleResponse.Body).Do (sampleConfig.Url ++ "/api/generate")
        (GenerateFirstRequest "x" sampleConfig) =
      Except.ok { StatusCode := 404, Body := sampleResponse.Body, Rest := "EOF" } ∧
    SendRequest (answering 404 sampleResponse.Body) (GenerateFirstRequest "x" sampleConfig)
        sampleConfig =
      { chunks := [ChanEvent.send "a", ChanEvent.send "b", ChanEvent.send "c", ChanEvent.close]
        context := some [1, 2]
        err := none
        returns := true } :=
  ⟨by decide, rfl, by decide⟩

/-- C9 (amended): a status outside 200-299 is not an error of its own, since
`SendRequest` does not look at the status: a response is handled the same way
whatever its status. `SendRequest` gives a non-nil error exactly when
serialization, the construction of the request or the connection fails; it then
returns, and `StreamHandler` and `OneshotHandler` treat the error as fatal. -/
theorem C9_error_only_from_failed_calls (net : Transport) (request : OllamaRequest)
    (config : Cli) :
    ((SendRequest net request config).err ≠ none ↔
      (net.Marshal request ≠ none ∨
       net.NewRequest (config.Url ++ "/api/generate") ≠ none ∨
       ∃ e, net.Do (config.Url ++ "/api/generate") request = Except.error e)) ∧
    ((SendRequest net request config).err ≠ none →
      (SendRequest net request config).returns = true) ∧
    (∀ resp status, net.Do (config.Url ++ "/api/generate") request = Except.ok resp →
      SendRequest { net with Do := fun _ _ => Except.ok { resp with StatusCode := status } }
          request config =
        SendRequest net request config) ∧
    (∀ (nets : Nat → Transport) (s : Session), s.status = Status.running →
      Join s.fullBody "\n" ≠ "" → nets s.requests.length = net →
      request = nextRequest config (Join s.fullBody "\n") s.context →
      (SendRequest net request config).err ≠ none →
      (step nets config s Event.tick).status = Status.exited) ∧
    (∀ lines, request = GenerateFirstRequest (Join lines "\n") config →
      (SendRequest net request config).err ≠ none →
      (OneshotHandler net (lines, none) config).status = Status.exited) := by
  refine ⟨?_, SendRequest_err_returns net request config, ?_, ?_, ?_⟩
  · cases hm : net.Marshal request with
    | some e => simp [SendRequest, hm]
    | none =>
      cases hn : net.NewRequest (config.Url ++ "/api/generate") with
      | some e => simp [SendRequest, hm, hn]
      | none =>
        cases hdo : net.Do (config.Url ++ "/api/generate") request with
        | error e => simp [SendRequest, hm, hn, hdo]
        | ok resp =>
          simp only [SendRequest, hm, hn, hdo]
          split <;> simp
  · intro resp status hdo
    simp only [SendRequest, hdo]
  · intro nets s hrun hj hnet hreq herr
    rw [step_tick nets config s hrun]
    apply onTick_status nets config s hj
    rw [hnet, ← hreq]
    exact herr
  · intro lines hreq herr
    apply OneshotHandler_fatal
    rw [← hreq]
    exact herr

/-- Witness of C9 (amended): the response of the round-trip scenario is handled the
same way with status 500 as with its own. -/
theorem C9_error_only_from_failed_calls_witness :
    SendRequest (serving { sampleResponse with StatusCode := 500 })
        (GenerateFirstRequest "x" sampleConfig) sampleConfig =
      SendRequest (serving sampleResponse) (GenerateFirstRequest "x" sampleConfig)
        sampleConfig :=
  (C9_error_only_from_failed_calls (serving sampleResponse)
    (GenerateFirstRequest "x" sampleConfig) sampleConfig).2.2.1 sampleResponse 500 rfl

/-- C10 fails on the code: a timer tick with an empty buffer starts a relay without
an exchange and never closes its channel, so one relay stays outstanding; the
wait after the next exchange then never completes. -/
theorem C10_relay_left_by_empty_tick :
    (StreamHandler sampleNet sampleConfig [Event.tick]).relays = 1 ∧
    (StreamHandler sampleNet sampleConfig [Event.tick]).requests.length = 0 ∧
    (StreamHandler sampleNet sampleConfig [Event.tick]).wg = 1 ∧
    (StreamHandler sampleNet sampleConfig
      [Event.tick, Event.line "x", Event.tick]).requests.length = 1 ∧
    (StreamHandler sampleNet sampleConfig
      [Event.tick, Event.line "x", Event.tick]).relays = 2 ∧
    (StreamHandler sampleNet sampleConfig
      [Event.tick, Event.line "x", Event.tick]).status = Status.blocked := by
  decide

end Inlama
